import Mathlib

/-!
Shallow embedding of `src/jwt-server.js` (nodejs-user-authentication-examples).

The server keeps identity records in a MongoDB collection; we model the
collection as a `List Record` in insertion order, with `findOne` as
`List.find?` (first match), `save` of a found-and-mutated document as
replacement of the first matching record, and `findOneAndDelete` as
removal of the first matching record.  A JWT signed with the process-wide
secret is modelled as a constructor wrapping its claims payload; any other
string (malformed, or signed under a different secret) is `malformed`,
on which `jwt.decode` throws.
-/

namespace JwtServer

/-- A document of the `users` collection: `name` and `password` are required
strings, `jobTitle` is optional (`userSchema`, jwt-server.js lines 46-50). -/
structure Record where
  name : String
  password : String
  jobTitle : Option String
deriving Repr, DecidableEq

/-- The `users` collection, in insertion order. -/
abbrev Store := List Record

/-- The claims payload the server puts in tokens: `{name, password}`
(jwt-server.js lines 120, 168). -/
structure Claims where
  name : String
  password : String
deriving Repr, DecidableEq

/-- A token string.  A string that is a JWT correctly signed under the
process-wide secret carries a claims payload; every other string is
`malformed` and makes `jwt.decode` throw. -/
inductive Token where
  | signed (claims : Claims)
  | malformed (s : String)
deriving Repr, DecidableEq

/-- `encodeToken(payload)` = `jwt.encode(payload, secret)`
(jwt-server.js lines 73-75). -/
def encodeToken (payload : Claims) : Token := .signed payload

/-- `decodeToken(token)` = `jwt.decode(token, secret)`
(jwt-server.js lines 79-81); `none` models the thrown exception on a
malformed or wrongly-signed token. -/
def decodeToken : Token → Option Claims
  | .signed c => some c
  | .malformed _ => none

/-- JavaScript truthiness of an optional string request-body field:
`undefined`/missing and the empty string are falsy. -/
def truthy : Option String → Bool
  | none => false
  | some s => !(s == "")

/-- What a route handler sends back: the rendered page (success page with an
optional token, failure page with a message, the status page, or the
redirect to `/api/status` that `modify` issues). -/
inductive Render where
  | success (message : String) (token : Option Token)
  | failure (message : String)
  | statusPage (message : String) (name : String) (jobTitle : Option String) (token : Token)
  | redirectStatus (token : Token)
deriving Repr, DecidableEq

/-- `User.findOne({name: username})`: first record with this name. -/
def findByName (username : String) (db : Store) : Option Record :=
  List.find? (fun r => r.name == username) db

/-- `User.findOne({name, password})`: first record matching both fields. -/
def findByNameAndPassword (username password : String) (db : Store) : Option Record :=
  List.find? (fun r => r.name == username && r.password == password) db

/-- Replace the first record satisfying `p` by `v` (the effect of
`user.save()` on a document obtained from `findOne` and mutated in memory). -/
def updateFirst (p : Record → Bool) (v : Record) : List Record → List Record
  | [] => []
  | r :: rs => if p r then v :: rs else r :: updateFirst p v rs

/-- `User.findOneAndDelete(query)`: atomically remove and return the first
matching record. -/
def findOneAndDelete (p : Record → Bool) : List Record → Option Record × List Record
  | [] => (none, [])
  | r :: rs =>
    if p r then (some r, rs)
    else
      let res := findOneAndDelete p rs
      (res.1, r :: res.2)

/-- `router.post("/register")` (jwt-server.js lines 95-110): reject an
existing username, otherwise append the new record and render success with
no token. -/
def register (username password : String) (jobTitle : Option String) (db : Store) :
    Render × Store :=
  match findByName username db with
  | some _ => (.failure "Username already exists!", db)
  | none =>
    (.success "Registration successful! You can now log in." none,
     db ++ ([⟨username, password, jobTitle⟩] : List Record))

/-- `router.post("/auth")` (jwt-server.js lines 114-125): look up the
`(name, password)` pair; on a hit, render success with a token encoding the
found user's name and password. -/
def auth (username password : String) (db : Store) : Render × Store :=
  match findByNameAndPassword username password db with
  | some user =>
    (.success "Authentication successful" (some (encodeToken ⟨user.name, user.password⟩)), db)
  | none => (.failure "Invalid username or password", db)

/-- `router.get("/status")` (jwt-server.js lines 128-148): decode the token
(failure page on a decode exception), re-resolve the claims against the
store, and render the status page echoing the same token. -/
def status (token : Token) (db : Store) : Render × Store :=
  match decodeToken token with
  | none => (.failure "Invalid or expired token.", db)
  | some payload =>
    match findByNameAndPassword payload.name payload.password db with
    | none => (.failure "User not found or invalid token.", db)
    | some user =>
      (.statusPage "Token validated successfully" user.name user.jobTitle token, db)

/-- `router.post("/modify")` (jwt-server.js lines 151-173): decode, resolve,
apply the truthy overrides (`if (newName) user.name = newName;
if (newJobTitle) user.jobTitle = newJobTitle`), save, and redirect to
status with a freshly minted token. -/
def modify (token : Token) (newName newJobTitle : Option String) (db : Store) :
    Render × Store :=
  match decodeToken token with
  | none => (.failure "Invalid or expired token.", db)
  | some payload =>
    match findByNameAndPassword payload.name payload.password db with
    | none => (.failure "User not found.", db)
    | some user =>
      let user' : Record :=
        { name := if truthy newName then newName.getD user.name else user.name
          password := user.password
          jobTitle := if truthy newJobTitle then newJobTitle else user.jobTitle }
      let db' : Store :=
        updateFirst (fun r => r.name == payload.name && r.password == payload.password) user' db
      (.redirectStatus (encodeToken ⟨user'.name, user'.password⟩), db')

/-- `router.post("/delete")` (jwt-server.js lines 176-195): the confirmation
gate comes first, before any token decoding; then decode, atomically
find-and-delete by the decoded claims, and report. -/
def deleteUser (token : Token) (confirm : Option String) (db : Store) : Render × Store :=
  if !truthy confirm then (.failure "You must confirm user deletion.", db)
  else
    match decodeToken token with
    | none => (.failure "Invalid or expired token.", db)
    | some payload =>
      let res := findOneAndDelete
        (fun r => r.name == payload.name && r.password == payload.password) db
      match res.1 with
      | none => (.failure "User not found or invalid token.", res.2)
      | some _ => (.success "User deleted successfully." none, res.2)

/-- `status` succeeded on this token and store (rendered the status page). -/
def statusOk (token : Token) (db : Store) : Bool :=
  match (status token db).1 with
  | .statusPage _ _ _ _ => true
  | _ => false

/-! ### Helper lemmas about the store primitives -/

theorem findBoth_some (u p : String) (db : Store) (r : Record)
    (h : findByNameAndPassword u p db = some r) :
    r ∈ db ∧ r.name = u ∧ r.password = p := by
  refine ⟨List.mem_of_find?_eq_some h, ?_⟩
  have hp := List.find?_some h
  simpa [Bool.and_eq_true, beq_iff_eq] using hp

theorem findBoth_none (u p : String) (db : Store)
    (h : findByNameAndPassword u p db = none) :
    ∀ r ∈ db, ¬(r.name = u ∧ r.password = p) := by
  intro r hr hc
  have := List.find?_eq_none.mp h r hr
  simp [Bool.and_eq_true, beq_iff_eq, hc.1, hc.2] at this

theorem findBoth_of_mem (u p : String) (db : Store) (r : Record)
    (hr : r ∈ db) (hn : r.name = u) (hp : r.password = p) :
    ∃ v, findByNameAndPassword u p db = some v := by
  cases hf : findByNameAndPassword u p db with
  | some v => exact ⟨v, rfl⟩
  | none => exact absurd ⟨hn, hp⟩ (findBoth_none u p db hf r hr)

theorem find?_split {p : Record → Bool} {l : List Record} {u : Record}
    (h : List.find? p l = some u) :
    ∃ l₁ l₂, l = l₁ ++ u :: l₂ ∧ (∀ x ∈ l₁, p x = false) ∧
      ∀ v, updateFirst p v l = l₁ ++ v :: l₂ := by
  induction l with
  | nil => simp at h
  | cons r rs ih =>
    by_cases hr : p r
    · rw [List.find?_cons_of_pos _ hr] at h
      cases h
      exact ⟨[], rs, by simp, by simp, fun v => by simp [updateFirst, hr]⟩
    · rw [List.find?_cons_of_neg _ hr] at h
      obtain ⟨l₁, l₂, hl, hfalse, hupd⟩ := ih h
      refine ⟨r :: l₁, l₂, by simp [hl], ?_, ?_⟩
      · intro x hx
        rcases List.mem_cons.mp hx with hx | hx
        · subst hx; exact Bool.of_not_eq_true hr
        · exact hfalse x hx
      · intro v
        simp [updateFirst, hr, hupd v]

theorem find?_append_none {p : Record → Bool} {l₁ : List Record}
    (h : ∀ x ∈ l₁, p x = false) (l₂ : List Record) :
    List.find? p (l₁ ++ l₂) = List.find? p l₂ := by
  induction l₁ with
  | nil => simp
  | cons r rs ih =>
    have hr : p r = false := h r (List.mem_cons_self r rs)
    rw [List.cons_append, List.find?_cons_of_neg _ (by simp [hr])]
    exact ih fun x hx => h x (List.mem_cons_of_mem r hx)

theorem updateFirst_self {p : Record → Bool} {l : List Record} {u : Record}
    (h : List.find? p l = some u) : updateFirst p u l = l := by
  induction l with
  | nil => rfl
  | cons r rs ih =>
    by_cases hr : p r
    · rw [List.find?_cons_of_pos _ hr] at h
      cases h
      simp [updateFirst, hr]
    · rw [List.find?_cons_of_neg _ hr] at h
      simp [updateFirst, hr, ih h]

theorem findOneAndDelete_none {p : Record → Bool} {l : List Record}
    (h : (findOneAndDelete p l).1 = none) : (findOneAndDelete p l).2 = l := by
  induction l with
  | nil => rfl
  | cons r rs ih =>
    by_cases hr : p r
    · simp [findOneAndDelete, hr] at h
    · simp only [findOneAndDelete, hr, Bool.false_eq_true, if_false] at h ⊢
      simp [ih h]

/-! ### The claims -/

/-- C2: decoding the token produced by encoding any claims payload under the
process-wide secret yields exactly that payload. -/
theorem C2_token_roundtrip (c : Claims) : decodeToken (encodeToken c) = some c := rfl

/-- C4: starting from an empty store, after `register("alice","pw1")`,
`authenticate("alice","pw1")` yields the token T = signed {alice, pw1};
`delete(T, true)` succeeds; a subsequent `status(T)` fails with the
stale-or-unknown-token failure and a subsequent `authenticate("alice","pw1")`
fails with the invalid-credentials failure. -/
theorem C4_scenario_delete :
    (auth "alice" "pw1" (register "alice" "pw1" none []).2).1
      = .success "Authentication successful" (some (Token.signed ⟨"alice", "pw1"⟩))
    ∧ (deleteUser (.signed ⟨"alice", "pw1"⟩) (some "true")
        (register "alice" "pw1" none []).2).1
      = .success "User deleted successfully." none
    ∧ (status (.signed ⟨"alice", "pw1"⟩)
        (deleteUser (.signed ⟨"alice", "pw1"⟩) (some "true")
          (register "alice" "pw1" none []).2).2).1
      = .failure "User not found or invalid token."
    ∧ (auth "alice" "pw1"
        (deleteUser (.signed ⟨"alice", "pw1"⟩) (some "true")
          (register "alice" "pw1" none []).2).2).1
      = .failure "Invalid username or password" := by decide

/-- C1: `authenticate(u, p)` renders the success page carrying a token that
encodes exactly the claims `(name = u, password = p)` if and only if a live
record with that name and password exists in the store; otherwise it renders
the invalid-credentials failure; in both cases the store is unchanged. -/
theorem C1_auth_correct (u p : String) (db : Store) :
    ((auth u p db).1
        = .success "Authentication successful" (some (encodeToken ⟨u, p⟩))
      ↔ ∃ r ∈ db, r.name = u ∧ r.password = p)
    ∧ ((auth u p db).1 = .failure "Invalid username or password"
      ↔ ¬ ∃ r ∈ db, r.name = u ∧ r.password = p)
    ∧ (auth u p db).2 = db := by
  cases hf : findByNameAndPassword u p db with
  | none =>
    refine ⟨⟨fun h => ?_, fun h => ?_⟩, ⟨fun _ hc => ?_, fun _ => ?_⟩, ?_⟩
    · simp [auth, hf] at h
    · obtain ⟨r, hr, hn, hp⟩ := h
      exact absurd ⟨hn, hp⟩ (findBoth_none u p db hf r hr)
    · obtain ⟨r, hr, hn, hp⟩ := hc
      exact absurd ⟨hn, hp⟩ (findBoth_none u p db hf r hr)
    · simp [auth, hf]
    · simp [auth, hf]
  | some user =>
    obtain ⟨hmem, hname, hpass⟩ := findBoth_some u p db user hf
    refine ⟨⟨fun _ => ⟨user, hmem, hname, hpass⟩, fun _ => ?_⟩,
      ⟨fun h => ?_, fun h => absurd ⟨user, hmem, hname, hpass⟩ h⟩, ?_⟩
    · simp [auth, hf, encodeToken, hname, hpass]
    · simp [auth, hf] at h
    · simp [auth, hf]

/-- Witness for C1 at a concrete store: a matching record gives the success
render with the token, and the store is unchanged. -/
theorem C1_auth_correct_witness :
    (auth "alice" "pw1" [⟨"alice", "pw1", none⟩]).1
      = .success "Authentication successful" (some (encodeToken ⟨"alice", "pw1"⟩)) :=
  (C1_auth_correct "alice" "pw1" [⟨"alice", "pw1", none⟩]).1.mpr
    ⟨⟨"alice", "pw1", none⟩, by decide, rfl, rfl⟩

/-- C6: with a falsy confirm flag, `delete` renders the confirmation-required
failure and leaves the store unchanged, for every token value — including
malformed ones, since the confirmation check precedes token decoding. -/
theorem C6_delete_confirm_gate (t : Token) (c : Option String) (db : Store)
    (h : truthy c = false) :
    deleteUser t c db = (.failure "You must confirm user deletion.", db) := by
  simp [deleteUser, h]

/-- Witness for C6: an unparseable token with a missing confirm flag still
hits the confirmation gate, not a token error. -/
theorem C6_delete_confirm_gate_witness :
    truthy none = false
    ∧ deleteUser (.malformed "not-a-jwt") none [⟨"alice", "pw1", none⟩]
      = (.failure "You must confirm user deletion.", [⟨"alice", "pw1", none⟩]) :=
  ⟨rfl, C6_delete_confirm_gate (.malformed "not-a-jwt") none [⟨"alice", "pw1", none⟩] rfl⟩

/-- C7: `status` never mutates the store, a repeated call with no intervening
mutation returns the identical render, and on success it returns the resolved
record's name and jobTitle together with the same token unchanged. -/
theorem C7_status_readonly_idempotent (t : Token) (db : Store) :
    (status t db).2 = db
    ∧ status t ((status t db).2) = status t db
    ∧ ∀ c, decodeToken t = some c →
        ∀ u, findByNameAndPassword c.name c.password db = some u →
          (status t db).1 = .statusPage "Token validated successfully" u.name u.jobTitle t := by
  have h2 : (status t db).2 = db := by
    cases hd : decodeToken t with
    | none => simp [status, hd]
    | some c =>
      cases hf : findByNameAndPassword c.name c.password db <;> simp [status, hd, hf]
  refine ⟨h2, by rw [h2], ?_⟩
  intro c hd u hf
  simp [status, hd, hf]

/-- Witness for C7 at a concrete token and store. -/
theorem C7_status_readonly_idempotent_witness :
    decodeToken (.signed ⟨"alice", "pw1"⟩) = some ⟨"alice", "pw1"⟩
    ∧ findByNameAndPassword "alice" "pw1" [⟨"alice", "pw1", some "dev"⟩]
      = some ⟨"alice", "pw1", some "dev"⟩
    ∧ (status (.signed ⟨"alice", "pw1"⟩) [⟨"alice", "pw1", some "dev"⟩]).1
      = .statusPage "Token validated successfully" "alice" (some "dev")
          (.signed ⟨"alice", "pw1"⟩) :=
  ⟨rfl, by decide,
    (C7_status_readonly_idempotent (.signed ⟨"alice", "pw1"⟩)
      [⟨"alice", "pw1", some "dev"⟩]).2.2 ⟨"alice", "pw1"⟩ rfl
      ⟨"alice", "pw1", some "dev"⟩ (by decide)⟩

/-- C9: failure atomicity — whenever any of the five operations renders a
failure page, the store after the call equals the store before it. -/
theorem C9_failure_atomicity (db : Store) :
    (∀ u p jt m, (register u p jt db).1 = .failure m → (register u p jt db).2 = db)
    ∧ (∀ u p m, (auth u p db).1 = .failure m → (auth u p db).2 = db)
    ∧ (∀ t m, (status t db).1 = .failure m → (status t db).2 = db)
    ∧ (∀ t nn nj m, (modify t nn nj db).1 = .failure m → (modify t nn nj db).2 = db)
    ∧ (∀ t c m, (deleteUser t c db).1 = .failure m → (deleteUser t c db).2 = db) := by
  refine ⟨?_, ?_, ?_, ?_, ?_⟩
  · intro u p jt m h
    cases hf : findByName u db with
    | some r => simp [register, hf]
    | none => simp [register, hf] at h
  · intro u p m _
    cases hf : findByNameAndPassword u p db <;> simp [auth, hf]
  · intro t m _
    cases hd : decodeToken t with
    | none => simp [status, hd]
    | some c =>
      cases hf : findByNameAndPassword c.name c.password db <;> simp [status, hd, hf]
  · intro t nn nj m h
    cases hd : decodeToken t with
    | none => simp [modify, hd]
    | some c =>
      cases hf : findByNameAndPassword c.name c.password db with
      | none => simp [modify, hd, hf]
      | some u => simp [modify, hd, hf] at h
  · intro t c m h
    by_cases hc : truthy c
    · cases hd : decodeToken t with
      | none => simp [deleteUser, hc, hd]
      | some payload =>
        cases hr : (findOneAndDelete
            (fun r => r.name == payload.name && r.password == payload.password) db).1 with
        | none =>
          simp only [deleteUser, hc, hd, Bool.not_true, Bool.false_eq_true, if_false, hr]
          exact findOneAndDelete_none hr
        | some u => simp [deleteUser, hc, hd, hr] at h
    · simp [deleteUser, hc]

/-- Witness for C9: a failing register on a taken username leaves the store
as it was. -/
theorem C9_failure_atomicity_witness :
    (register "alice" "pw2" none [⟨"alice", "pw1", none⟩]).1
      = .failure "Username already exists!"
    ∧ (register "alice" "pw2" none [⟨"alice", "pw1", none⟩]).2
      = [⟨"alice", "pw1", none⟩] :=
  ⟨by decide, (C9_failure_atomicity [⟨"alice", "pw1", none⟩]).1 "alice" "pw2" none
    "Username already exists!" (by decide)⟩

/-- If some record in the store bears the name `u`, `findByName u` finds
one. -/
theorem findName_of_mem (u : String) (db : Store) (r : Record)
    (hr : r ∈ db) (hn : r.name = u) : ∃ v, findByName u db = some v := by
  cases hf : findByName u db with
  | some v => exact ⟨v, rfl⟩
  | none =>
    have := List.find?_eq_none.mp hf r hr
    simp [hn] at this

/-- C5: `register(u, q)` fails with the username-taken failure and performs no
store mutation and issues no token whenever a record named `u` exists; in
particular after a successful `register(u, p)` a second `register(u, q)` fails
for every `q` while the stored credential for `u` remains `p`. -/
theorem C5_register_uniqueness (u p q : String) (jt jt2 : Option String) (db : Store) :
    (∀ r ∈ db, r.name = u →
      (register u q jt2 db).1 = .failure "Username already exists!"
      ∧ (register u q jt2 db).2 = db)
    ∧ (findByName u db = none →
        (register u p jt db).1
          = .success "Registration successful! You can now log in." none
        ∧ (register u q jt2 (register u p jt db).2).1 = .failure "Username already exists!"
        ∧ (register u q jt2 (register u p jt db).2).2 = (register u p jt db).2
        ∧ findByName u (register u p jt db).2 = some ⟨u, p, jt⟩) := by
  constructor
  · intro r hr hn
    obtain ⟨v, hv⟩ := findName_of_mem u db r hr hn
    constructor <;> simp [register, hv]
  · intro h
    have hdb2 : (register u p jt db).2 = db ++ [⟨u, p, jt⟩] := by simp [register, h]
    have hfind : findByName u (db ++ ([⟨u, p, jt⟩] : List Record)) = some ⟨u, p, jt⟩ := by
      unfold findByName
      rw [find?_append_none
        (fun x hx => Bool.of_not_eq_true (List.find?_eq_none.mp h x hx)) _]
      simp
    refine ⟨by simp [register, h], ?_, ?_, by rw [hdb2]; exact hfind⟩
    · rw [hdb2]
      simp [register, hfind]
    · rw [hdb2]
      simp [register, hfind]

/-- Witness for C5 starting from the empty store. -/
theorem C5_register_uniqueness_witness :
    findByName "alice" ([] : Store) = none
    ∧ (register "alice" "pw1" none ([] : Store)).1
      = .success "Registration successful! You can now log in." none
    ∧ (register "alice" "pw2" none (register "alice" "pw1" none ([] : Store)).2).1
      = .failure "Username already exists!"
    ∧ (register "alice" "pw2" none (register "alice" "pw1" none ([] : Store)).2).2
      = (register "alice" "pw1" none ([] : Store)).2
    ∧ findByName "alice" (register "alice" "pw1" none ([] : Store)).2
      = some ⟨"alice", "pw1", none⟩ :=
  ⟨rfl, (C5_register_uniqueness "alice" "pw1" "pw2" none none ([] : Store)).2 rfl⟩

/-- C10: `modify` with both override fields falsy (omitted or empty) on a
token whose claims resolve to a live record leaves the store unchanged,
returns a redirect carrying a token with the same claims as the old token
(so the old token still decodes to claims matching a live record), and the
old token still passes `status`. -/
theorem C10_modify_noop (t : Token) (nn nj : Option String) (db : Store)
    (c : Claims) (user : Record)
    (hd : decodeToken t = some c)
    (hf : findByNameAndPassword c.name c.password db = some user)
    (hn : truthy nn = false) (hj : truthy nj = false) :
    (modify t nn nj db).2 = db
    ∧ (modify t nn nj db).1 = .redirectStatus (encodeToken ⟨c.name, c.password⟩)
    ∧ (∀ tk, (modify t nn nj db).1 = .redirectStatus tk → decodeToken tk = decodeToken t)
    ∧ statusOk t db = true := by
  obtain ⟨hmem, hname, hpass⟩ := findBoth_some _ _ _ _ hf
  have hupd : updateFirst
      (fun r => r.name == c.name && r.password == c.password) user db = db :=
    updateFirst_self hf
  have hmod : modify t nn nj db
      = (.redirectStatus (encodeToken ⟨user.name, user.password⟩), db) := by
    simp [modify, hd, hf, hn, hj, hupd]
  rw [hmod]
  refine ⟨rfl, by rw [hname, hpass], ?_, by simp [statusOk, status, hd, hf]⟩
  intro tk htk
  have : encodeToken ⟨user.name, user.password⟩ = tk := by
    cases htk
    rfl
  rw [← this, hd, hname, hpass]
  rfl

/-- Witness for C10 at a concrete store: `modify` with `newName` absent and
`newJobTitle` the empty string is a no-op that re-issues an equivalent
token. -/
theorem C10_modify_noop_witness :
    (truthy none = false ∧ truthy (some "") = false)
    ∧ ((modify (.signed ⟨"alice", "pw1"⟩) none (some "")
          [⟨"alice", "pw1", some "dev"⟩]).2 = [⟨"alice", "pw1", some "dev"⟩]
      ∧ (modify (.signed ⟨"alice", "pw1"⟩) none (some "")
          [⟨"alice", "pw1", some "dev"⟩]).1
        = .redirectStatus (encodeToken ⟨"alice", "pw1"⟩)
      ∧ (∀ tk, (modify (.signed ⟨"alice", "pw1"⟩) none (some "")
          [⟨"alice", "pw1", some "dev"⟩]).1 = .redirectStatus tk →
            decodeToken tk = decodeToken (.signed ⟨"alice", "pw1"⟩))
      ∧ statusOk (.signed ⟨"alice", "pw1"⟩) [⟨"alice", "pw1", some "dev"⟩] = true) :=
  ⟨⟨rfl, rfl⟩,
    C10_modify_noop (.signed ⟨"alice", "pw1"⟩) none (some "")
      [⟨"alice", "pw1", some "dev"⟩] ⟨"alice", "pw1"⟩ ⟨"alice", "pw1", some "dev"⟩
      rfl (by decide) rfl rfl⟩

/-- C8 fails on the code: from a store with distinct names alice and bob, a
successful `modify` renaming bob to alice leaves two live records named
alice, so name uniqueness is not preserved by `modify` when `newName`
collides with an existing record. -/
theorem C8_modify_breaks_uniqueness :
    (([⟨"alice", "pw", none⟩, ⟨"bob", "pw2", none⟩] : Store).map Record.name).Nodup
    ∧ (modify (.signed ⟨"bob", "pw2"⟩) (some "alice") none
        [⟨"alice", "pw", none⟩, ⟨"bob", "pw2", none⟩]).1
      = .redirectStatus (.signed ⟨"alice", "pw2"⟩)
    ∧ (modify (.signed ⟨"bob", "pw2"⟩) (some "alice") none
        [⟨"alice", "pw", none⟩, ⟨"bob", "pw2", none⟩]).2
      = [⟨"alice", "pw", none⟩, ⟨"alice", "pw2", none⟩]
    ∧ ¬ ((modify (.signed ⟨"bob", "pw2"⟩) (some "alice") none
        [⟨"alice", "pw", none⟩, ⟨"bob", "pw2", none⟩]).2.map Record.name).Nodup := by
  decide

/-- The in-memory record that `modify` saves: the truthy overrides applied to
the found record (`if (newName) user.name = newName; if (newJobTitle)
user.jobTitle = newJobTitle`, jwt-server.js lines 163-164). -/
def modifiedRecord (nn nj : Option String) (user : Record) : Record :=
  { name := if truthy nn then nn.getD user.name else user.name
    password := user.password
    jobTitle := if truthy nj then nj else user.jobTitle }

/-- C3: for every successful `modify` on a store with unique names: exactly
the first record matching the token's claims is replaced; its password
(credential) is never changed; an override is applied exactly when the
corresponding request field is truthy (provided and non-empty), otherwise the
prior value is kept; the minted token encodes the resulting name and the
unchanged credential; and the old token still passes `status` on the
post-state if and only if the name did not change. -/
theorem C3_modify_correct (t : Token) (nn nj : Option String) (db : Store)
    (c : Claims) (user : Record)
    (hnodup : (db.map Record.name).Nodup)
    (hd : decodeToken t = some c)
    (hf : findByNameAndPassword c.name c.password db = some user) :
    ∃ l₁ l₂ : List Record,
      db = l₁ ++ user :: l₂
      ∧ (modify t nn nj db).2 = l₁ ++ modifiedRecord nn nj user :: l₂
      ∧ (modifiedRecord nn nj user).password = user.password
      ∧ (truthy nn = false → (modifiedRecord nn nj user).name = user.name)
      ∧ (∀ s, nn = some s → s ≠ "" → (modifiedRecord nn nj user).name = s)
      ∧ (truthy nj = false → (modifiedRecord nn nj user).jobTitle = user.jobTitle)
      ∧ (∀ s, nj = some s → s ≠ "" → (modifiedRecord nn nj user).jobTitle = some s)
      ∧ (modify t nn nj db).1
        = .redirectStatus (encodeToken ⟨(modifiedRecord nn nj user).name, user.password⟩)
      ∧ (statusOk t ((modify t nn nj db).2) = true
          ↔ (modifiedRecord nn nj user).name = user.name) := by
  obtain ⟨hmem, hname, hpass⟩ := findBoth_some _ _ _ _ hf
  obtain ⟨l₁, l₂, hsplit, hfalse, hupd⟩ :=
    find?_split (p := fun r => r.name == c.name && r.password == c.password) hf
  have hmod2 : (modify t nn nj db).2 = l₁ ++ modifiedRecord nn nj user :: l₂ := by
    simp only [modify, hd, hf]
    exact hupd (modifiedRecord nn nj user)
  have hmod1 : (modify t nn nj db).1
      = .redirectStatus (encodeToken ⟨(modifiedRecord nn nj user).name, user.password⟩) := by
    simp only [modify, hd, hf]
    rfl
  have hnotmem : user.name ∉ l₂.map Record.name := by
    have h1 : ((l₁ ++ user :: l₂).map Record.name).Nodup := hsplit ▸ hnodup
    rw [List.map_append] at h1
    have h2 := h1.of_append_right
    rw [List.map_cons] at h2
    exact (List.nodup_cons.mp h2).1
  have hl2none :
      List.find? (fun r => r.name == c.name && r.password == c.password) l₂ = none := by
    rw [List.find?_eq_none]
    intro x hx hpx
    have hxn : x.name = c.name := by
      simp only [Bool.and_eq_true, beq_iff_eq] at hpx
      exact hpx.1
    exact hnotmem (List.mem_map.mpr ⟨x, hx, by rw [hxn, ← hname]⟩)
  have hfind' : findByNameAndPassword c.name c.password
      (l₁ ++ modifiedRecord nn nj user :: l₂)
      = if (modifiedRecord nn nj user).name = user.name
        then some (modifiedRecord nn nj user) else none := by
    unfold findByNameAndPassword
    rw [find?_append_none hfalse]
    have hpw : (modifiedRecord nn nj user).password = user.password := rfl
    by_cases heq : (modifiedRecord nn nj user).name = user.name
    · rw [List.find?_cons_of_pos _
        (by simp [Bool.and_eq_true, beq_iff_eq, heq, hpw, ← hname, ← hpass])]
      simp [heq]
    · rw [List.find?_cons_of_neg _
        (by simp [Bool.and_eq_true, beq_iff_eq, hpw, ← hname, heq]), hl2none]
      simp [heq]
  have hstat : statusOk t ((modify t nn nj db).2) = true
      ↔ (modifiedRecord nn nj user).name = user.name := by
    rw [hmod2]
    by_cases heq : (modifiedRecord nn nj user).name = user.name
    · simp [statusOk, status, hd, hfind', heq]
    · simp [statusOk, status, hd, hfind', heq]
  refine ⟨l₁, l₂, hsplit, hmod2, rfl, ?_, ?_, ?_, ?_, hmod1, hstat⟩
  · intro h
    simp [modifiedRecord, h]
  · intro s hs hne
    subst hs
    simp [modifiedRecord, truthy, hne]
  · intro h
    simp [modifiedRecord, h]
  · intro s hs hne
    subst hs
    simp [modifiedRecord, truthy, hne]

/-- Witness for C3 at a concrete store: renaming alice to alicia replaces the
sole record, keeps the credential, mints a token for (alicia, pw1), and the
old token no longer passes `status`. -/
theorem C3_modify_correct_witness :
    ((([⟨"alice", "pw1", some "dev"⟩] : Store).map Record.name).Nodup
      ∧ decodeToken (.signed ⟨"alice", "pw1"⟩) = some ⟨"alice", "pw1"⟩
      ∧ findByNameAndPassword "alice" "pw1" [⟨"alice", "pw1", some "dev"⟩]
        = some ⟨"alice", "pw1", some "dev"⟩)
    ∧ ∃ l₁ l₂ : List Record,
      ([⟨"alice", "pw1", some "dev"⟩] : Store) = l₁ ++ ⟨"alice", "pw1", some "dev"⟩ :: l₂
      ∧ (modify (.signed ⟨"alice", "pw1"⟩) (some "alicia") none
          [⟨"alice", "pw1", some "dev"⟩]).2
        = l₁ ++ modifiedRecord (some "alicia") none ⟨"alice", "pw1", some "dev"⟩ :: l₂
      ∧ (modifiedRecord (some "alicia") none ⟨"alice", "pw1", some "dev"⟩).password = "pw1"
      ∧ (truthy (some "alicia") = false →
          (modifiedRecord (some "alicia") none ⟨"alice", "pw1", some "dev"⟩).name = "alice")
      ∧ (∀ s, some "alicia" = some s → s ≠ "" →
          (modifiedRecord (some "alicia") none ⟨"alice", "pw1", some "dev"⟩).name = s)
      ∧ (truthy (none : Option String) = false →
          (modifiedRecord (some "alicia") none ⟨"alice", "pw1", some "dev"⟩).jobTitle
            = some "dev")
      ∧ (∀ s, (none : Option String) = some s → s ≠ "" →
          (modifiedRecord (some "alicia") none ⟨"alice", "pw1", some "dev"⟩).jobTitle
            = some s)
      ∧ (modify (.signed ⟨"alice", "pw1"⟩) (some "alicia") none
          [⟨"alice", "pw1", some "dev"⟩]).1
        = .redirectStatus (encodeToken
            ⟨(modifiedRecord (some "alicia") none ⟨"alice", "pw1", some "dev"⟩).name, "pw1"⟩)
      ∧ (statusOk (.signed ⟨"alice", "pw1"⟩)
          ((modify (.signed ⟨"alice", "pw1"⟩) (some "alicia") none
            [⟨"alice", "pw1", some "dev"⟩]).2) = true
          ↔ (modifiedRecord (some "alicia") none ⟨"alice", "pw1", some "dev"⟩).name
            = "alice") :=
  ⟨⟨by decide, rfl, by decide⟩,
    C3_modify_correct (.signed ⟨"alice", "pw1"⟩) (some "alicia") none
      [⟨"alice", "pw1", some "dev"⟩] ⟨"alice", "pw1"⟩ ⟨"alice", "pw1", some "dev"⟩
      (by decide) rfl (by decide)⟩

end JwtServer
